import Mathlib

/-!
Verification development for the Enterprise boot tool (src/src/main.c).

The file shallowly embeds the configuration-resolution and chain-load
subsystem of the program: the boot-option store builder
(`ReadConfigurationFile`, main.c lines 203-264), the launcher
(`BootLinuxWithOptions`, lines 143-201) and the startup decision logic of
`efi_main` (lines 82-124).  C strings (`CHAR8 *`) are modelled as Lean
`String`s; a possibly-NULL string pointer is `Option String`.  Dereferencing
a NULL pointer is undefined behaviour in the C source and is modelled by an
explicit crash outcome.  Observable side effects (firmware variable writes,
prints, stalls, allocation and release of the device path) are recorded as
an explicit event trace.
-/

namespace Enterprise

/-- One boot option record (`LinuxBootOption`), with the fields the source
reads and writes: `name`, `distro_family`, `kernel_path`, `initrd_path`,
`boot_folder` (main.c lines 227, 236-239, 253-257, 162-164).  The node is
created with `AllocateZeroPool` (line 226), so every field starts as a NULL
pointer, modelled as `none`. -/
structure LinuxBootOption where
  name : Option String
  distro_family : Option String
  kernel_path : Option String
  initrd_path : Option String
  boot_folder : Option String
deriving DecidableEq

/-- Modelled from the spec: the Distribution Registry lookups
`KernelLocationForDistributionName` (which also yields the boot folder
through an out parameter) and `InitRDLocationForDistributionName` live in
distribution.c, which is not under src/.  Per spec section 4.2 a lookup maps a
family identifier to a kernel path plus boot folder, and to an initrd path;
an empty string result means the family is unsupported. -/
structure DistributionRegistry where
  kernelLoc : String → String × String
  initrdLoc : String → String

/-- Result of one iteration of the configuration loop body (main.c lines
218-261): the traversal either continues with an updated state, or the store
is invalidated (`distributionListRoot = NULL`, line 248) and the function
returns, or the iteration dereferences the NULL `bootOption` payload of the
sentinel head node (undefined behaviour, modelled as `crashed`).
`acc` holds the finished real nodes in file order, `cur` the payload of the
node the `conductor` cursor points at (`none` while it still points at the
sentinel), `msgs` the diagnostics printed so far. -/
inductive StepOut where
  | cont (acc : List LinuxBootOption) (cur : Option LinuxBootOption) (msgs : List String)
  | invalid (msgs : List String)
  | crashed (msgs : List String)
deriving DecidableEq

/-- One key/value directive of the configuration loop (main.c lines 224-260).
`entry` appends a fresh zeroed node carrying only its name (lines 225-231).
`family` writes the family, the registry kernel/initrd paths and the boot
folder into the active node (lines 236-239) and, if either resolved path is
the empty string, prints the unsupported-family diagnostic, nulls the store
root and returns (lines 243-250).  `kernel`, `initrd` and `root` overwrite
the corresponding field unconditionally (lines 252-257).  Any other key is
reported and ignored (line 259).  Every branch except `entry` dereferences
`conductor->bootOption`, which is NULL while the conductor still points at
the sentinel head: that is the `crashed` outcome. -/
def processDirective (reg : DistributionRegistry) (acc : List LinuxBootOption)
    (cur : Option LinuxBootOption) (msgs : List String) (key value : String) : StepOut :=
  if key = "entry" then
    StepOut.cont (acc ++ cur.toList) (some ⟨some value, none, none, none, none⟩) msgs
  else if key = "family" then
    match cur with
    | none => StepOut.crashed msgs
    | some c =>
      if (reg.kernelLoc value).1 = "" ∨ reg.initrdLoc value = "" then
        StepOut.invalid (msgs ++ ["Distribution family " ++ value ++ " is not supported."])
      else
        StepOut.cont acc (some ⟨c.name, some value, some (reg.kernelLoc value).1,
          some (reg.initrdLoc value), some (reg.kernelLoc value).2⟩) msgs
  else if key = "kernel" then
    match cur with
    | none => StepOut.crashed msgs
    | some c =>
      StepOut.cont acc (some ⟨c.name, c.distro_family, some value, c.initrd_path, c.boot_folder⟩) msgs
  else if key = "initrd" then
    match cur with
    | none => StepOut.crashed msgs
    | some c =>
      StepOut.cont acc (some ⟨c.name, c.distro_family, c.kernel_path, some value, c.boot_folder⟩) msgs
  else if key = "root" then
    match cur with
    | none => StepOut.crashed msgs
    | some c =>
      StepOut.cont acc (some ⟨c.name, c.distro_family, c.kernel_path, c.initrd_path, some value⟩) msgs
  else
    StepOut.cont acc cur (msgs ++ ["Unrecognized configuration option: " ++ key ++ "."])

/-- Outcome of the whole store build.  `done root msgs` mirrors the final
value of `distributionListRoot`: `none` when the build was invalidated
(line 248), otherwise the node list headed by the sentinel (whose payload is
`none`, line 205) followed by one real node per `entry` directive.
`crashed` records a NULL-payload dereference. -/
inductive BuildResult where
  | crashed (msgs : List String)
  | done (root : Option (List (Option LinuxBootOption))) (msgs : List String)
deriving DecidableEq

/-- The configuration while-loop (main.c lines 218-261), folded over the
directive sequence the tokenizer yields. -/
def buildLoop (reg : DistributionRegistry) :
    List (String × String) → List LinuxBootOption → Option LinuxBootOption →
    List String → BuildResult
  | [], acc, cur, msgs => BuildResult.done (some (none :: (acc ++ cur.toList).map some)) msgs
  | (k, v) :: ds, acc, cur, msgs =>
    match processDirective reg acc cur msgs k v with
    | StepOut.cont acc2 cur2 msgs2 => buildLoop reg ds acc2 cur2 msgs2
    | StepOut.invalid msgs2 => BuildResult.done none msgs2
    | StepOut.crashed msgs2 => BuildResult.crashed msgs2

/-- The store build on a directive sequence, starting from the freshly
allocated sentinel root with the conductor pointing at it
(main.c lines 205-208). -/
def buildStore (reg : DistributionRegistry) (ds : List (String × String)) : BuildResult :=
  buildLoop reg ds [] none []

/-- Whitespace predicate for tokenizer trimming. -/
def isWS (c : Char) : Bool :=
  c = ' ' || c = '\t' || c = '\r'

/-- Trim whitespace from both ends of a character list. -/
def trimChars (l : List Char) : List Char :=
  ((l.dropWhile isWS).reverse.dropWhile isWS).reverse

/-- Split a character list at every occurrence of a separator character. -/
def splitOnChar (c : Char) : List Char → List (List Char)
  | [] => [[]]
  | x :: xs =>
    if x = c then [] :: splitOnChar c xs
    else
      match splitOnChar c xs with
      | [] => [[x]]
      | l :: ls => (x :: l) :: ls

/-- Modelled from the spec: `GetConfigurationKeyAndValue` (utils.c, not under
src/).  Per spec section 4.1 the tokenizer is line oriented, splits each
line at the first separator into a key and a value, trims surrounding
whitespace, silently skips blank lines and lines without a separator, and
yields the pairs in document order. -/
def tokenize (buf : String) : List (String × String) :=
  (splitOnChar (Char.ofNat 10) buf.data).filterMap fun line =>
    match splitOnChar (Char.ofNat 61) line with
    | [] => none
    | [_] => none
    | k :: rest =>
      some (String.mk (trimChars k),
        String.mk (trimChars (List.intercalate [Char.ofNat 61] rest)))

/-- Diagnostic printed when `FileRead` returns zero bytes
(main.c lines 212-214; text abbreviated without punctuation contractions). -/
def readErrMsg : String := "Error: Could not read configuration information."

/-- `ReadConfigurationFile` (main.c lines 203-264) on the contents of the
configuration file.  An unreadable or empty file is modelled as the empty
string: it yields the zero-bytes diagnostic (lines 212-214) and the loop
then sees no directives.  Note that the function continues after the
zero-bytes diagnostic and that the sentinel root allocated at line 205 is
left in place when the loop produces no entries. -/
def ReadConfigurationFile (reg : DistributionRegistry) (contents : String) : BuildResult :=
  buildLoop reg (tokenize contents) [] none
    (if contents.length = 0 then [readErrMsg] else [])

/-- Outcome of the startup decision logic of `efi_main`:
the menu is displayed, or the cannot-continue message is printed and the
program halts with `EFI_LOAD_ERROR` (main.c lines 116-122), or the
configuration parse itself crashed. -/
inductive MainOutcome where
  | crashed
  | menuShown
  | halted
deriving DecidableEq

/-- The can-continue decision of `efi_main` (main.c lines 82-122): the
configuration file must exist and parse to a non-NULL
`distributionListRoot`, and the GRUB image and the ISO must exist; only then
is the menu displayed, otherwise the program halts.  When the configuration
file is missing, `ReadConfigurationFile` is never called. -/
def efi_main (reg : DistributionRegistry) (configExists bootEfiExists bootIsoExists : Bool)
    (contents : String) : MainOutcome :=
  if configExists then
    match ReadConfigurationFile reg contents with
    | BuildResult.crashed _ => MainOutcome.crashed
    | BuildResult.done root _ =>
      if root.isSome && bootEfiExists && bootIsoExists then MainOutcome.menuShown
      else MainOutcome.halted
  else MainOutcome.halted

/-- EFI status values the launcher returns (main.c lines 159, 182, 195, 200). -/
inductive EfiStatus where
  | success
  | loadError
deriving DecidableEq

/-- Observable side effects of the launcher, in program order: a firmware
variable write with its byte size (`efi_set_variable`), a printed message, a
printed firmware status code (`Print(L"%r\n", err)`), a timed stall in
microseconds, allocation of the device path (`FileDevicePath`, line 174),
the image load and start calls, the screen clear, and release of the device
path (`FreePool(path)`, lines 180 and 193). -/
inductive Event where
  | setVar (varName : String) (value : String) (size : Nat)
  | print (msg : String)
  | printStatus (code : Nat)
  | stall (microseconds : Nat)
  | allocPath
  | loadImage
  | clearScreen
  | startImage
  | freePath
deriving DecidableEq

/-- Result of a launcher invocation: a return with a status and the event
trace, or a NULL-pointer dereference (undefined behaviour) after the traced
events. -/
inductive LaunchResult where
  | crash (events : List Event)
  | ret (status : EfiStatus) (events : List Event)
deriving DecidableEq

/-- Modelled from the spec: `strlena` (gnu-efi, not under src/) is the byte
length of a null-terminated ASCII string, i.e. the length of the modelled
string. -/
def strlena (s : String) : Nat := s.length

/-- Modelled from the spec: `UTF16toASCII` (utils.c, not under src/)
re-encodes the wide parameter string as a byte string; on the modelled
strings it is the identity. -/
def UTF16toASCII (s : String) : String := s

/-- The cursor walk of the launcher (main.c lines 153-155): `conductor`
starts at `distributionListRoot->next` (the node after the sentinel) and is
advanced `distribution` times, stopping early at NULL.  The result is the
payload of the node the walk ends on, or `none` when the cursor ran off the
end of the list, i.e. exactly when `distribution` is at least the number of
real nodes. -/
def resolveOption (root : List (Option LinuxBootOption)) (idx : Nat) :
    Option (Option LinuxBootOption) :=
  (root.drop 1)[idx]?

/-- `BootLinuxWithOptions` (main.c lines 143-201).  `root` is the store node
list headed by the sentinel; `loadErr` and `startErr` are the firmware
status codes of `BS->LoadImage` and `BS->StartImage` (`none` on success).
The extra-parameters variable is written first (lines 148-150), before the
cursor walk; then the payload of the walked-to node is read
(`conductor->bootOption`, line 156 - NULL cursor means a crash), the
NULL-payload check may return early (lines 157-160, with no status-code
print and no stall), the three path variables are written with byte size
`strlena + 1` (lines 166-171), the device path is allocated and the image
loaded and started; both failure paths print the status code, stall three
seconds, free the device path and return `EFI_LOAD_ERROR`; the success path
stalls and returns without freeing the path (lines 174-200). -/
def BootLinuxWithOptions (params : String) (distribution : Nat)
    (root : List (Option LinuxBootOption)) (loadErr startErr : Option Nat) : LaunchResult :=
  let ev0 : Event := Event.setVar "Enterprise_LinuxBootOptions" (UTF16toASCII params)
    (strlena (UTF16toASCII params) + 1)
  match resolveOption root distribution with
  | none => LaunchResult.crash [ev0]
  | some none =>
    LaunchResult.ret EfiStatus.loadError
      [ev0, Event.print "Error: could not get Linux distribution boot settings."]
  | some (some bo) =>
    match bo.kernel_path with
    | none => LaunchResult.crash [ev0]
    | some k =>
      let ev1 : Event := Event.setVar "Enterprise_LinuxKernelPath" k (strlena k + 1)
      match bo.initrd_path with
      | none => LaunchResult.crash [ev0, ev1]
      | some ird =>
        let ev2 : Event := Event.setVar "Enterprise_InitRDPath" ird (strlena ird + 1)
        match bo.boot_folder with
        | none => LaunchResult.crash [ev0, ev1, ev2]
        | some b =>
          let ev3 : Event := Event.setVar "Enterprise_BootFolder" b (strlena b + 1)
          match loadErr with
          | some c =>
            LaunchResult.ret EfiStatus.loadError
              [ev0, ev1, ev2, ev3, Event.allocPath, Event.loadImage,
               Event.print "Error loading image: ", Event.printStatus c,
               Event.stall 3000000, Event.freePath]
          | none =>
            match startErr with
            | some c =>
              LaunchResult.ret EfiStatus.loadError
                [ev0, ev1, ev2, ev3, Event.allocPath, Event.loadImage,
                 Event.clearScreen, Event.startImage,
                 Event.print "Error starting image: ", Event.printStatus c,
                 Event.stall 3000000, Event.freePath]
            | none =>
              LaunchResult.ret EfiStatus.success
                [ev0, ev1, ev2, ev3, Event.allocPath, Event.loadImage,
                 Event.clearScreen, Event.startImage, Event.stall 3000000]

/-- The names of the `entry` directives of a directive sequence, in order. -/
def entryNames (ds : List (String × String)) : List String :=
  ds.filterMap fun kv => if kv.1 = "entry" then some kv.2 else none

/-- Number of `entry` directives of a directive sequence. -/
def countEntries (ds : List (String × String)) : Nat := (entryNames ds).length

/-- Well-formedness of a directive sequence relative to a registry and to
whether an active (non-sentinel) node already exists: every `family`,
`kernel`, `initrd` or `root` directive is preceded by an `entry`, and every
`family` directive resolves to non-empty kernel and initrd paths. -/
def goodDirectives (reg : DistributionRegistry) :
    List (String × String) → Bool → Bool
  | [], _ => true
  | (k, v) :: ds, hasActive =>
    if k = "entry" then goodDirectives reg ds true
    else if k = "family" then
      hasActive && !((reg.kernelLoc v).1 == "" || reg.initrdLoc v == "") &&
        goodDirectives reg ds hasActive
    else if k = "kernel" then hasActive && goodDirectives reg ds hasActive
    else if k = "initrd" then hasActive && goodDirectives reg ds hasActive
    else if k = "root" then hasActive && goodDirectives reg ds hasActive
    else goodDirectives reg ds hasActive

/-- Weaker precondition: every `family`, `kernel`, `initrd` or `root`
directive is preceded by at least one `entry` directive (no requirement on
family resolution). -/
def entryPrecedes : List (String × String) → Bool → Bool
  | [], _ => true
  | (k, _) :: ds, hasActive =>
    if k = "entry" then entryPrecedes ds true
    else if k = "family" then hasActive && entryPrecedes ds hasActive
    else if k = "kernel" then hasActive && entryPrecedes ds hasActive
    else if k = "initrd" then hasActive && entryPrecedes ds hasActive
    else if k = "root" then hasActive && entryPrecedes ds hasActive
    else entryPrecedes ds hasActive

/-- Whether a build outcome is the NULL-payload dereference. -/
def isCrashed : BuildResult → Bool
  | BuildResult.crashed _ => true
  | BuildResult.done _ _ => false

/-- Whether an event is a firmware variable write. -/
def isSetVar : Event → Bool
  | Event.setVar _ _ _ => true
  | _ => false

/-- Allocation-instrumented step outcome: as `StepOut`, but each node carries
the heap address `AllocateZeroPool` returned for it, and the continuing
state carries the allocator cursor.  This makes the dependence of a build
run on the prior heap state explicit, so that independence of the resulting
structure from that state is a provable property rather than a modelling
assumption. -/
inductive StepOutA where
  | cont (alloc : Nat) (acc : List (Nat × LinuxBootOption))
      (cur : Option (Nat × LinuxBootOption)) (msgs : List String)
  | invalid (msgs : List String)
  | crashed (msgs : List String)

/-- Allocation-instrumented `processDirective`: identical logic, but the
`entry` branch consumes two heap cells (the node and its payload,
main.c lines 225-226) and stamps the node with its address. -/
def processDirectiveA (reg : DistributionRegistry) (alloc : Nat)
    (acc : List (Nat × LinuxBootOption)) (cur : Option (Nat × LinuxBootOption))
    (msgs : List String) (key value : String) : StepOutA :=
  if key = "entry" then
    StepOutA.cont (alloc + 2) (acc ++ cur.toList)
      (some (alloc, ⟨some value, none, none, none, none⟩)) msgs
  else if key = "family" then
    match cur with
    | none => StepOutA.crashed msgs
    | some ac =>
      if (reg.kernelLoc value).1 = "" ∨ reg.initrdLoc value = "" then
        StepOutA.invalid (msgs ++ ["Distribution family " ++ value ++ " is not supported."])
      else
        StepOutA.cont alloc acc (some (ac.1, ⟨ac.2.name, some value,
          some (reg.kernelLoc value).1, some (reg.initrdLoc value),
          some (reg.kernelLoc value).2⟩)) msgs
  else if key = "kernel" then
    match cur with
    | none => StepOutA.crashed msgs
    | some ac =>
      StepOutA.cont alloc acc (some (ac.1, ⟨ac.2.name, ac.2.distro_family, some value,
        ac.2.initrd_path, ac.2.boot_folder⟩)) msgs
  else if key = "initrd" then
    match cur with
    | none => StepOutA.crashed msgs
    | some ac =>
      StepOutA.cont alloc acc (some (ac.1, ⟨ac.2.name, ac.2.distro_family, ac.2.kernel_path,
        some value, ac.2.boot_folder⟩)) msgs
  else if key = "root" then
    match cur with
    | none => StepOutA.crashed msgs
    | some ac =>
      StepOutA.cont alloc acc (some (ac.1, ⟨ac.2.name, ac.2.distro_family, ac.2.kernel_path,
        ac.2.initrd_path, some value⟩)) msgs
  else
    StepOutA.cont alloc acc cur (msgs ++ ["Unrecognized configuration option: " ++ key ++ "."])

/-- Allocation-instrumented build outcome. -/
inductive BuildResultA where
  | crashed (msgs : List String)
  | done (root : Option (List (Option (Nat × LinuxBootOption)))) (msgs : List String)

/-- Allocation-instrumented configuration loop. -/
def buildLoopA (reg : DistributionRegistry) :
    List (String × String) → Nat → List (Nat × LinuxBootOption) →
    Option (Nat × LinuxBootOption) → List String → BuildResultA
  | [], _, acc, cur, msgs =>
    BuildResultA.done (some (none :: (acc ++ cur.toList).map some)) msgs
  | (k, v) :: ds, alloc, acc, cur, msgs =>
    match processDirectiveA reg alloc acc cur msgs k v with
    | StepOutA.cont alloc2 acc2 cur2 msgs2 => buildLoopA reg ds alloc2 acc2 cur2 msgs2
    | StepOutA.invalid msgs2 => BuildResultA.done none msgs2
    | StepOutA.crashed msgs2 => BuildResultA.crashed msgs2

/-- Allocation-instrumented `ReadConfigurationFile`: one independent run of
the configuration parser, starting with allocator cursor `alloc`. -/
def ReadConfigurationFileA (reg : DistributionRegistry) (alloc : Nat)
    (contents : String) : BuildResultA :=
  buildLoopA reg (tokenize contents) alloc [] none
    (if contents.length = 0 then [readErrMsg] else [])

/-- Structural erasure: forget the heap addresses, keeping the number of
nodes, their order, and every stored string field. -/
def eraseResult : BuildResultA → BuildResult
  | BuildResultA.crashed msgs => BuildResult.crashed msgs
  | BuildResultA.done none msgs => BuildResult.done none msgs
  | BuildResultA.done (some l) msgs =>
    BuildResult.done (some (l.map (Option.map Prod.snd))) msgs

/-- The event trace of a launcher invocation, whether it returned or
crashed. -/
def launchEvents : LaunchResult → List Event
  | LaunchResult.crash evs => evs
  | LaunchResult.ret _ evs => evs

/-- Whether a launcher invocation ended in a NULL-pointer dereference. -/
def isLaunchCrash : LaunchResult → Bool
  | LaunchResult.crash _ => true
  | LaunchResult.ret _ _ => false

/-- A registry with no supported family, used for concrete evaluations. -/
def regNone : DistributionRegistry :=
  ⟨fun _ => ("", ""), fun _ => ""⟩

/-- A registry knowing the `ubuntu` family, used for concrete evaluations.
The template paths are arbitrary non-empty stand-ins for the distribution.c
table, which is not under src/. -/
def regUbuntu : DistributionRegistry :=
  ⟨fun f => if f = "ubuntu" then ("/casper/vmlinuz", "/casper") else ("", ""),
   fun f => if f = "ubuntu" then "/casper/initrd.lz" else ""⟩

/-- A fully resolved sample boot option for concrete launcher evaluations. -/
def sampleBO : LinuxBootOption :=
  ⟨some "A", none, some "/k", some "/i", some "/b"⟩

/-! ## Launcher theorems -/

/-- C1 (counterexample).  The claim says a launch with index at least the
store length returns a boot-option-not-found failure and performs no
firmware variable writes.  On the code, the extra-parameters variable is
written before the cursor walk (main.c lines 148-150), and for an index at
or beyond the store length the walk leaves `conductor == NULL` and line 156
dereferences it: the call neither returns a failure status nor leaves the
firmware variables untouched.  Concrete input: a store with one real entry,
launched at index 2. -/
theorem boot_invalid_index_cex :
    isLaunchCrash (BootLinuxWithOptions "x" 2 [none, some sampleBO] none none) = true ∧
      (launchEvents (BootLinuxWithOptions "x" 2 [none, some sampleBO] none none)).filter
        isSetVar ≠ [] := by
  decide

/-- C1 (amended).  For every store and every index at least the number of
real nodes, `BootLinuxWithOptions` first writes exactly one firmware
variable (the extra kernel parameters, with byte size length plus one) and
then dereferences the NULL cursor at main.c line 156: undefined behaviour,
not a boot-option-not-found return. -/
theorem boot_invalid_index_crash (params : String) (idx : Nat)
    (root : List (Option LinuxBootOption)) (loadErr startErr : Option Nat)
    (h : (root.drop 1).length ≤ idx) :
    BootLinuxWithOptions params idx root loadErr startErr =
      LaunchResult.crash
        [Event.setVar "Enterprise_LinuxBootOptions" params (params.length + 1)] := by
  have hr : resolveOption root idx = none := by
    rw [resolveOption]
    exact List.getElem?_eq_none h
  simp [BootLinuxWithOptions, hr, strlena, UTF16toASCII]

/-- Witness for `boot_invalid_index_crash` at a one-entry store and
index 1. -/
theorem boot_invalid_index_crash_witness :
    ([(none : Option LinuxBootOption), some sampleBO].drop 1).length ≤ 1 ∧
      BootLinuxWithOptions "x" 1 [none, some sampleBO] none none =
        LaunchResult.crash
          [Event.setVar "Enterprise_LinuxBootOptions" "x" ("x".length + 1)] :=
  ⟨by decide, boot_invalid_index_crash "x" 1 [none, some sampleBO] none none (by decide)⟩

/-- C5 (confirmed).  For every launch of a valid index whose boot option is
fully resolved, with image load and start succeeding, the launcher writes
exactly four firmware variables - extra kernel parameters, kernel path,
initrd path, boot folder - each with byte size the string length plus one
(the trailing null), and all four writes form the initial trace segment
before the image load is attempted (main.c lines 148-175). -/
theorem launch_writes_four_variables (params k ird b : String) (idx : Nat)
    (root : List (Option LinuxBootOption)) (bo : LinuxBootOption)
    (h1 : resolveOption root idx = some (some bo))
    (h2 : bo.kernel_path = some k) (h3 : bo.initrd_path = some ird)
    (h4 : bo.boot_folder = some b) :
    ∃ evs, BootLinuxWithOptions params idx root none none =
        LaunchResult.ret EfiStatus.success evs ∧
      evs.takeWhile isSetVar =
        [Event.setVar "Enterprise_LinuxBootOptions" params (params.length + 1),
         Event.setVar "Enterprise_LinuxKernelPath" k (k.length + 1),
         Event.setVar "Enterprise_InitRDPath" ird (ird.length + 1),
         Event.setVar "Enterprise_BootFolder" b (b.length + 1)] ∧
      evs.filter isSetVar = evs.takeWhile isSetVar ∧
      Event.loadImage ∈ evs := by
  refine ⟨[Event.setVar "Enterprise_LinuxBootOptions" params (params.length + 1),
      Event.setVar "Enterprise_LinuxKernelPath" k (k.length + 1),
      Event.setVar "Enterprise_InitRDPath" ird (ird.length + 1),
      Event.setVar "Enterprise_BootFolder" b (b.length + 1),
      Event.allocPath, Event.loadImage, Event.clearScreen, Event.startImage,
      Event.stall 3000000], ?_, ?_, ?_, ?_⟩
  · simp [BootLinuxWithOptions, h1, h2, h3, h4, strlena, UTF16toASCII]
  · simp [List.takeWhile_cons, isSetVar]
  · simp [List.filter, List.takeWhile_cons, isSetVar]
  · simp

/-- Witness for `launch_writes_four_variables` at index 0 of a one-entry
store. -/
theorem launch_writes_four_variables_witness :
    resolveOption [none, some sampleBO] 0 = some (some sampleBO) ∧
      sampleBO.kernel_path = some "/k" ∧
      sampleBO.initrd_path = some "/i" ∧
      sampleBO.boot_folder = some "/b" ∧
      (∃ evs, BootLinuxWithOptions "p" 0 [none, some sampleBO] none none =
          LaunchResult.ret EfiStatus.success evs ∧
        evs.takeWhile isSetVar =
          [Event.setVar "Enterprise_LinuxBootOptions" "p" ("p".length + 1),
           Event.setVar "Enterprise_LinuxKernelPath" "/k" ("/k".length + 1),
           Event.setVar "Enterprise_InitRDPath" "/i" ("/i".length + 1),
           Event.setVar "Enterprise_BootFolder" "/b" ("/b".length + 1)] ∧
        evs.filter isSetVar = evs.takeWhile isSetVar ∧
        Event.loadImage ∈ evs) :=
  ⟨by decide, by decide, by decide, by decide,
    launch_writes_four_variables "p" "/k" "/i" "/b" 0 [none, some sampleBO] sampleBO
      (by decide) (by decide) (by decide) (by decide)⟩

/-- C7 (counterexample).  The claim says every launch error - including
option index not found - is reported with the underlying firmware status
code, followed by a fixed delay, then a recoverable return.  On the code,
launching index 5 of a one-entry store leaves `conductor == NULL` and
line 156 dereferences it: the whole trace is the one variable write - no
status code is printed, no stall happens, and no status is returned. -/
theorem launch_error_no_delay_cex :
    isLaunchCrash (BootLinuxWithOptions "quiet" 5 [none, some sampleBO] none none) = true ∧
      (launchEvents (BootLinuxWithOptions "quiet" 5 [none, some sampleBO] none none)).all
        isSetVar = true := by
  decide

/-- C7 (amended).  The image-load and image-start failure paths behave as
the claim says: the error is reported together with the firmware status
code, a fixed three-second stall follows, and `EFI_LOAD_ERROR` is returned
with no retry (main.c lines 176-196).  The option-index-not-found case does
not: it is the subject of the counterexample above. -/
theorem load_start_failures_report_delay_return (params k ird b : String) (idx : Nat)
    (root : List (Option LinuxBootOption)) (bo : LinuxBootOption) (c : Nat)
    (startErr : Option Nat)
    (h1 : resolveOption root idx = some (some bo))
    (h2 : bo.kernel_path = some k) (h3 : bo.initrd_path = some ird)
    (h4 : bo.boot_folder = some b) :
    BootLinuxWithOptions params idx root (some c) startErr =
      LaunchResult.ret EfiStatus.loadError
        [Event.setVar "Enterprise_LinuxBootOptions" params (params.length + 1),
         Event.setVar "Enterprise_LinuxKernelPath" k (k.length + 1),
         Event.setVar "Enterprise_InitRDPath" ird (ird.length + 1),
         Event.setVar "Enterprise_BootFolder" b (b.length + 1),
         Event.allocPath, Event.loadImage,
         Event.print "Error loading image: ", Event.printStatus c,
         Event.stall 3000000, Event.freePath] ∧
    BootLinuxWithOptions params idx root none (some c) =
      LaunchResult.ret EfiStatus.loadError
        [Event.setVar "Enterprise_LinuxBootOptions" params (params.length + 1),
         Event.setVar "Enterprise_LinuxKernelPath" k (k.length + 1),
         Event.setVar "Enterprise_InitRDPath" ird (ird.length + 1),
         Event.setVar "Enterprise_BootFolder" b (b.length + 1),
         Event.allocPath, Event.loadImage, Event.clearScreen, Event.startImage,
         Event.print "Error starting image: ", Event.printStatus c,
         Event.stall 3000000, Event.freePath] := by
  constructor <;> simp [BootLinuxWithOptions, h1, h2, h3, h4, strlena, UTF16toASCII]

/-- Witness for `load_start_failures_report_delay_return` at index 0 of a
one-entry store with firmware status code 7. -/
theorem load_start_failures_report_delay_return_witness :
    resolveOption [none, some sampleBO] 0 = some (some sampleBO) ∧
      sampleBO.kernel_path = some "/k" ∧
      sampleBO.initrd_path = some "/i" ∧
      sampleBO.boot_folder = some "/b" ∧
      (BootLinuxWithOptions "p" 0 [none, some sampleBO] (some 7) none =
        LaunchResult.ret EfiStatus.loadError
          [Event.setVar "Enterprise_LinuxBootOptions" "p" ("p".length + 1),
           Event.setVar "Enterprise_LinuxKernelPath" "/k" ("/k".length + 1),
           Event.setVar "Enterprise_InitRDPath" "/i" ("/i".length + 1),
           Event.setVar "Enterprise_BootFolder" "/b" ("/b".length + 1),
           Event.allocPath, Event.loadImage,
           Event.print "Error loading image: ", Event.printStatus 7,
           Event.stall 3000000, Event.freePath] ∧
      BootLinuxWithOptions "p" 0 [none, some sampleBO] none (some 7) =
        LaunchResult.ret EfiStatus.loadError
          [Event.setVar "Enterprise_LinuxBootOptions" "p" ("p".length + 1),
           Event.setVar "Enterprise_LinuxKernelPath" "/k" ("/k".length + 1),
           Event.setVar "Enterprise_InitRDPath" "/i" ("/i".length + 1),
           Event.setVar "Enterprise_BootFolder" "/b" ("/b".length + 1),
           Event.allocPath, Event.loadImage, Event.clearScreen, Event.startImage,
           Event.print "Error starting image: ", Event.printStatus 7,
           Event.stall 3000000, Event.freePath]) :=
  ⟨by decide, by decide, by decide, by decide,
    load_start_failures_report_delay_return "p" "/k" "/i" "/b" 0 [none, some sampleBO]
      sampleBO 7 none (by decide) (by decide) (by decide) (by decide)⟩

/-- C10 (confirmed).  On every launcher invocation that returns, if the
device path was allocated then it is released exactly when the invocation is
a failure return (image load failure, line 180, or image start failure,
line 193), exactly once, and it is never released on the success path
(lines 198-200). -/
theorem device_path_freed_on_failure_only (params : String) (idx : Nat)
    (root : List (Option LinuxBootOption)) (loadErr startErr : Option Nat)
    (st : EfiStatus) (evs : List Event)
    (h : BootLinuxWithOptions params idx root loadErr startErr = LaunchResult.ret st evs)
    (ha : Event.allocPath ∈ evs) :
    (Event.freePath ∈ evs ↔ st = EfiStatus.loadError) ∧
      evs.count Event.freePath = (if st = EfiStatus.loadError then 1 else 0) := by
  rcases hr : resolveOption root idx with _ | (_ | bo)
  · simp [BootLinuxWithOptions, hr] at h
  · simp [BootLinuxWithOptions, hr] at h
    obtain ⟨hst, hevs⟩ := h
    subst hst
    subst hevs
    simp at ha
  · rcases hk : bo.kernel_path with _ | k
    · simp [BootLinuxWithOptions, hr, hk] at h
    · rcases hi : bo.initrd_path with _ | ird
      · simp [BootLinuxWithOptions, hr, hk, hi] at h
      · rcases hb : bo.boot_folder with _ | b
        · simp [BootLinuxWithOptions, hr, hk, hi, hb] at h
        · rcases hl : loadErr with _ | c
          · rcases hs : startErr with _ | c2
            · simp [BootLinuxWithOptions, hr, hk, hi, hb, hl, hs] at h
              obtain ⟨hst, hevs⟩ := h
              subst hst
              subst hevs
              simp [List.count_cons]
            · simp [BootLinuxWithOptions, hr, hk, hi, hb, hl, hs] at h
              obtain ⟨hst, hevs⟩ := h
              subst hst
              subst hevs
              simp [List.count_cons]
          · simp [BootLinuxWithOptions, hr, hk, hi, hb, hl] at h
            obtain ⟨hst, hevs⟩ := h
            subst hst
            subst hevs
            simp [List.count_cons]

/-- Witness for `device_path_freed_on_failure_only` on the success trace of
index 0 of a one-entry store. -/
theorem device_path_freed_on_failure_only_witness :
    (Event.freePath ∈
        [Event.setVar "Enterprise_LinuxBootOptions" "p" 2,
         Event.setVar "Enterprise_LinuxKernelPath" "/k" 3,
         Event.setVar "Enterprise_InitRDPath" "/i" 3,
         Event.setVar "Enterprise_BootFolder" "/b" 3,
         Event.allocPath, Event.loadImage, Event.clearScreen, Event.startImage,
         Event.stall 3000000] ↔ EfiStatus.success = EfiStatus.loadError) ∧
      List.count Event.freePath
        [Event.setVar "Enterprise_LinuxBootOptions" "p" 2,
         Event.setVar "Enterprise_LinuxKernelPath" "/k" 3,
         Event.setVar "Enterprise_InitRDPath" "/i" 3,
         Event.setVar "Enterprise_BootFolder" "/b" 3,
         Event.allocPath, Event.loadImage, Event.clearScreen, Event.startImage,
         Event.stall 3000000] =
        (if EfiStatus.success = EfiStatus.loadError then 1 else 0) :=
  device_path_freed_on_failure_only "p" 0 [none, some sampleBO] none none
    EfiStatus.success _ (by decide) (by decide)

/-! ## Builder lemmas -/

/-- Helper: running the configuration loop over a well-formed directive
sequence never invalidates or crashes; it appends one real node per `entry`
directive, in order, carrying the entry names. -/
theorem buildLoop_good (reg : DistributionRegistry) :
    ∀ (ds : List (String × String)) (acc : List LinuxBootOption)
      (cur : Option LinuxBootOption) (msgs : List String),
      goodDirectives reg ds cur.isSome = true →
      ∃ ns msgs2,
        buildLoop reg ds acc cur msgs =
          BuildResult.done (some (none :: (acc ++ ns).map some)) msgs2 ∧
        ns.map LinuxBootOption.name =
          cur.toList.map LinuxBootOption.name ++ (entryNames ds).map some := by
  intro ds
  induction ds with
  | nil =>
    intro acc cur msgs _
    exact ⟨cur.toList, msgs, rfl, by simp [entryNames]⟩
  | cons kv ds ih =>
    obtain ⟨k, v⟩ := kv
    intro acc cur msgs hgood
    by_cases hk : k = "entry"
    · subst hk
      simp only [goodDirectives, eq_self_iff_true, if_true] at hgood
      obtain ⟨ns, msgs2, heq, hnames⟩ :=
        ih (acc ++ cur.toList) (some ⟨some v, none, none, none, none⟩) msgs hgood
      refine ⟨cur.toList ++ ns, msgs2, ?_, ?_⟩
      · have hstep : buildLoop reg (("entry", v) :: ds) acc cur msgs =
            buildLoop reg ds (acc ++ cur.toList) (some ⟨some v, none, none, none, none⟩)
              msgs := by
          simp [buildLoop, processDirective]
        rw [hstep, heq, List.append_assoc]
      · simp [entryNames] at hnames ⊢
        simp [hnames]
    · by_cases hf : k = "family"
      · subst hf
        simp only [goodDirectives, hk, if_false, eq_self_iff_true, if_true,
          Bool.and_eq_true, Bool.not_eq_true', Bool.or_eq_false_iff,
          beq_eq_false_iff_ne, ne_eq] at hgood
        obtain ⟨⟨hsome, hv1, hv2⟩, hrest⟩ := hgood
        obtain ⟨c, rfl⟩ := Option.isSome_iff_exists.mp hsome
        obtain ⟨ns, msgs2, heq, hnames⟩ :=
          ih acc (some ⟨c.name, some v, some (reg.kernelLoc v).1,
            some (reg.initrdLoc v), some (reg.kernelLoc v).2⟩) msgs hrest
        refine ⟨ns, msgs2, ?_, ?_⟩
        · have hstep : buildLoop reg (("family", v) :: ds) acc (some c) msgs =
              buildLoop reg ds acc (some ⟨c.name, some v, some (reg.kernelLoc v).1,
                some (reg.initrdLoc v), some (reg.kernelLoc v).2⟩) msgs := by
            simp [buildLoop, processDirective, hv1, hv2]
          rw [hstep, heq]
        · simpa [entryNames] using hnames
      · by_cases hke : k = "kernel"
        · subst hke
          simp only [goodDirectives, hk, hf, if_false, eq_self_iff_true, if_true,
            Bool.and_eq_true] at hgood
          obtain ⟨hsome, hrest⟩ := hgood
          obtain ⟨c, rfl⟩ := Option.isSome_iff_exists.mp hsome
          obtain ⟨ns, msgs2, heq, hnames⟩ :=
            ih acc (some ⟨c.name, c.distro_family, some v, c.initrd_path, c.boot_folder⟩)
              msgs hrest
          refine ⟨ns, msgs2, ?_, ?_⟩
          · have hstep : buildLoop reg (("kernel", v) :: ds) acc (some c) msgs =
                buildLoop reg ds acc
                  (some ⟨c.name, c.distro_family, some v, c.initrd_path, c.boot_folder⟩)
                  msgs := by
              simp [buildLoop, processDirective]
            rw [hstep, heq]
          · simpa [entryNames] using hnames
        · by_cases hi : k = "initrd"
          · subst hi
            simp only [goodDirectives, hk, hf, hke, if_false, eq_self_iff_true, if_true,
              Bool.and_eq_true] at hgood
            obtain ⟨hsome, hrest⟩ := hgood
            obtain ⟨c, rfl⟩ := Option.isSome_iff_exists.mp hsome
            obtain ⟨ns, msgs2, heq, hnames⟩ :=
              ih acc (some ⟨c.name, c.distro_family, c.kernel_path, some v, c.boot_folder⟩)
                msgs hrest
            refine ⟨ns, msgs2, ?_, ?_⟩
            · have hstep : buildLoop reg (("initrd", v) :: ds) acc (some c) msgs =
                  buildLoop reg ds acc
                    (some ⟨c.name, c.distro_family, c.kernel_path, some v, c.boot_folder⟩)
                    msgs := by
                simp [buildLoop, processDirective]
              rw [hstep, heq]
            · simpa [entryNames] using hnames
          · by_cases hr : k = "root"
            · subst hr
              simp only [goodDirectives, hk, hf, hke, hi, if_false, eq_self_iff_true,
                if_true, Bool.and_eq_true] at hgood
              obtain ⟨hsome, hrest⟩ := hgood
              obtain ⟨c, rfl⟩ := Option.isSome_iff_exists.mp hsome
              obtain ⟨ns, msgs2, heq, hnames⟩ :=
                ih acc (some ⟨c.name, c.distro_family, c.kernel_path, c.initrd_path, some v⟩)
                  msgs hrest
              refine ⟨ns, msgs2, ?_, ?_⟩
              · have hstep : buildLoop reg (("root", v) :: ds) acc (some c) msgs =
                    buildLoop reg ds acc
                      (some ⟨c.name, c.distro_family, c.kernel_path, c.initrd_path, some v⟩)
                      msgs := by
                  simp [buildLoop, processDirective]
                rw [hstep, heq]
              · simpa [entryNames] using hnames
            · simp only [goodDirectives, hk, hf, hke, hi, hr, if_false] at hgood
              obtain ⟨ns, msgs2, heq, hnames⟩ := ih acc cur
                (msgs ++ ["Unrecognized configuration option: " ++ k ++ "."]) hgood
              refine ⟨ns, msgs2, ?_, ?_⟩
              · have hstep : buildLoop reg ((k, v) :: ds) acc cur msgs =
                    buildLoop reg ds acc cur
                      (msgs ++ ["Unrecognized configuration option: " ++ k ++ "."]) := by
                  simp [buildLoop, processDirective, hk, hf, hke, hi, hr]
                rw [hstep, heq]
              · simpa [entryNames, hk] using hnames

/-- C3 (confirmed).  For every directive sequence in which each `family`,
`kernel`, `initrd` or `root` directive is preceded by an `entry` and each
`family` resolves to non-empty paths (which holds in particular for the
well-formed configurations of the claim), the store is the sentinel head
node with no payload followed by exactly one real node per `entry`
directive, in file order (carrying the entry names in order), and the
launcher cursor walk at index 0 addresses precisely the node after the
sentinel. -/
theorem store_has_one_node_per_entry (reg : DistributionRegistry)
    (ds : List (String × String)) (h : goodDirectives reg ds false = true) :
    ∃ (ns : List LinuxBootOption) (msgs : List String),
      buildStore reg ds = BuildResult.done (some (none :: ns.map some)) msgs ∧
      ns.length = countEntries ds ∧
      ns.map LinuxBootOption.name = (entryNames ds).map some ∧
      resolveOption (none :: ns.map some) 0 = (ns.map some)[0]? := by
  obtain ⟨ns, msgs2, heq, hnames⟩ := buildLoop_good reg ds [] none [] (by simpa using h)
  refine ⟨ns, msgs2, by simpa [buildStore] using heq, ?_, by simpa using hnames, ?_⟩
  · have hlen := congrArg List.length hnames
    simpa [countEntries] using hlen
  · simp [resolveOption]

/-- Witness for `store_has_one_node_per_entry` on the two-entry scenario
configuration of the spec. -/
theorem store_has_one_node_per_entry_witness :
    goodDirectives regUbuntu
        [("entry", "A"), ("kernel", "/a/vmlinuz"), ("initrd", "/a/initrd.img"),
         ("root", "/a"), ("entry", "B"), ("family", "ubuntu")] false = true ∧
      ∃ (ns : List LinuxBootOption) (msgs : List String),
        buildStore regUbuntu
            [("entry", "A"), ("kernel", "/a/vmlinuz"), ("initrd", "/a/initrd.img"),
             ("root", "/a"), ("entry", "B"), ("family", "ubuntu")] =
          BuildResult.done (some (none :: ns.map some)) msgs ∧
        ns.length = countEntries
          [("entry", "A"), ("kernel", "/a/vmlinuz"), ("initrd", "/a/initrd.img"),
           ("root", "/a"), ("entry", "B"), ("family", "ubuntu")] ∧
        ns.map LinuxBootOption.name = (entryNames
          [("entry", "A"), ("kernel", "/a/vmlinuz"), ("initrd", "/a/initrd.img"),
           ("root", "/a"), ("entry", "B"), ("family", "ubuntu")]).map some ∧
        resolveOption (none :: ns.map some) 0 = (ns.map some)[0]? :=
  ⟨by decide,
    store_has_one_node_per_entry regUbuntu
      [("entry", "A"), ("kernel", "/a/vmlinuz"), ("initrd", "/a/initrd.img"),
       ("root", "/a"), ("entry", "B"), ("family", "ubuntu")] (by decide)⟩

/-- Helper: running the configuration loop over a well-formed prefix that
contains at least one `entry` directive (or starts with an active node)
neither invalidates nor crashes, and leaves the conductor on an active
(non-sentinel) node; the remaining directives are processed from that
state. -/
theorem buildLoop_good_prefix (reg : DistributionRegistry) :
    ∀ (pre : List (String × String)) (acc : List LinuxBootOption)
      (cur : Option LinuxBootOption) (msgs : List String) (rest : List (String × String)),
      goodDirectives reg pre cur.isSome = true →
      (cur.isSome = true ∨ 0 < countEntries pre) →
      ∃ acc2 c2 msgs2,
        buildLoop reg (pre ++ rest) acc cur msgs = buildLoop reg rest acc2 (some c2) msgs2 := by
  intro pre
  induction pre with
  | nil =>
    intro acc cur msgs rest hgood hact
    rcases hact with hs | hcount
    · obtain ⟨c, rfl⟩ := Option.isSome_iff_exists.mp hs
      exact ⟨acc, c, msgs, rfl⟩
    · simp [countEntries, entryNames] at hcount
  | cons kv pre ih =>
    obtain ⟨k, v⟩ := kv
    intro acc cur msgs rest hgood hact
    by_cases hk : k = "entry"
    · subst hk
      simp only [goodDirectives, eq_self_iff_true, if_true] at hgood
      obtain ⟨acc2, c2, msgs2, heq⟩ :=
        ih (acc ++ cur.toList) (some ⟨some v, none, none, none, none⟩) msgs rest hgood
          (Or.inl rfl)
      refine ⟨acc2, c2, msgs2, ?_⟩
      have hstep : buildLoop reg ((("entry", v) :: pre) ++ rest) acc cur msgs =
          buildLoop reg (pre ++ rest) (acc ++ cur.toList)
            (some ⟨some v, none, none, none, none⟩) msgs := by
        simp [buildLoop, processDirective]
      rw [hstep, heq]
    · by_cases hf : k = "family"
      · subst hf
        simp only [goodDirectives, hk, if_false, eq_self_iff_true, if_true,
          Bool.and_eq_true, Bool.not_eq_true', Bool.or_eq_false_iff,
          beq_eq_false_iff_ne, ne_eq] at hgood
        obtain ⟨⟨hsome, hv1, hv2⟩, hrest⟩ := hgood
        obtain ⟨c, rfl⟩ := Option.isSome_iff_exists.mp hsome
        obtain ⟨acc2, c2, msgs2, heq⟩ :=
          ih acc (some ⟨c.name, some v, some (reg.kernelLoc v).1,
            some (reg.initrdLoc v), some (reg.kernelLoc v).2⟩) msgs rest hrest (Or.inl rfl)
        refine ⟨acc2, c2, msgs2, ?_⟩
        have hstep : buildLoop reg ((("family", v) :: pre) ++ rest) acc (some c) msgs =
            buildLoop reg (pre ++ rest) acc (some ⟨c.name, some v, some (reg.kernelLoc v).1,
              some (reg.initrdLoc v), some (reg.kernelLoc v).2⟩) msgs := by
          simp [buildLoop, processDirective, hv1, hv2]
        rw [hstep, heq]
      · by_cases hke : k = "kernel"
        · subst hke
          simp only [goodDirectives, hk, hf, if_false, eq_self_iff_true, if_true,
            Bool.and_eq_true] at hgood
          obtain ⟨hsome, hrest⟩ := hgood
          obtain ⟨c, rfl⟩ := Option.isSome_iff_exists.mp hsome
          obtain ⟨acc2, c2, msgs2, heq⟩ :=
            ih acc (some ⟨c.name, c.distro_family, some v, c.initrd_path, c.boot_folder⟩)
              msgs rest hrest (Or.inl rfl)
          refine ⟨acc2, c2, msgs2, ?_⟩
          have hstep : buildLoop reg ((("kernel", v) :: pre) ++ rest) acc (some c) msgs =
              buildLoop reg (pre ++ rest) acc
                (some ⟨c.name, c.distro_family, some v, c.initrd_path, c.boot_folder⟩)
                msgs := by
            simp [buildLoop, processDirective]
          rw [hstep, heq]
        · by_cases hi : k = "initrd"
          · subst hi
            simp only [goodDirectives, hk, hf, hke, if_false, eq_self_iff_true, if_true,
              Bool.and_eq_true] at hgood
            obtain ⟨hsome, hrest⟩ := hgood
            obtain ⟨c, rfl⟩ := Option.isSome_iff_exists.mp hsome
            obtain ⟨acc2, c2, msgs2, heq⟩ :=
              ih acc (some ⟨c.name, c.distro_family, c.kernel_path, some v, c.boot_folder⟩)
                msgs rest hrest (Or.inl rfl)
            refine ⟨acc2, c2, msgs2, ?_⟩
            have hstep : buildLoop reg ((("initrd", v) :: pre) ++ rest) acc (some c) msgs =
                buildLoop reg (pre ++ rest) acc
                  (some ⟨c.name, c.distro_family, c.kernel_path, some v, c.boot_folder⟩)
                  msgs := by
              simp [buildLoop, processDirective]
            rw [hstep, heq]
          · by_cases hr : k = "root"
            · subst hr
              simp only [goodDirectives, hk, hf, hke, hi, if_false, eq_self_iff_true,
                if_true, Bool.and_eq_true] at hgood
              obtain ⟨hsome, hrest⟩ := hgood
              obtain ⟨c, rfl⟩ := Option.isSome_iff_exists.mp hsome
              obtain ⟨acc2, c2, msgs2, heq⟩ :=
                ih acc (some ⟨c.name, c.distro_family, c.kernel_path, c.initrd_path, some v⟩)
                  msgs rest hrest (Or.inl rfl)
              refine ⟨acc2, c2, msgs2, ?_⟩
              have hstep : buildLoop reg ((("root", v) :: pre) ++ rest) acc (some c) msgs =
                  buildLoop reg (pre ++ rest) acc
                    (some ⟨c.name, c.distro_family, c.kernel_path, c.initrd_path, some v⟩)
                    msgs := by
                simp [buildLoop, processDirective]
              rw [hstep, heq]
            · simp only [goodDirectives, hk, hf, hke, hi, hr, if_false] at hgood
              have hact2 : cur.isSome = true ∨ 0 < countEntries pre := by
                rcases hact with hs | hcount
                · exact Or.inl hs
                · right
                  simpa [countEntries, entryNames, hk] using hcount
              obtain ⟨acc2, c2, msgs2, heq⟩ := ih acc cur
                (msgs ++ ["Unrecognized configuration option: " ++ k ++ "."]) rest hgood hact2
              refine ⟨acc2, c2, msgs2, ?_⟩
              have hstep : buildLoop reg (((k, v) :: pre) ++ rest) acc cur msgs =
                  buildLoop reg (pre ++ rest) acc cur
                    (msgs ++ ["Unrecognized configuration option: " ++ k ++ "."]) := by
                simp [buildLoop, processDirective, hk, hf, hke, hi, hr]
              rw [hstep, heq]

/-- C2 (counterexample).  The claim quantifies over every configuration
containing a `family` directive with an empty registry resolution,
"regardless of how many valid entries preceded" - including zero.  With no
preceding `entry` the conductor still points at the sentinel, whose
`bootOption` is NULL, and main.c line 236 dereferences it: the build
crashes instead of invalidating the store and printing the diagnostic. -/
theorem family_before_entry_crashes_cex :
    buildStore regNone [("family", "nope")] = BuildResult.crashed [] := by
  decide

/-- C2 (amended).  For every configuration prefix that is well formed and
contains at least one `entry` directive, a subsequent `family` directive
whose registry lookup yields an empty kernel path or an empty initrd path
invalidates the entire store (the root becomes NULL) no matter how many
valid entries preceded, the rest of the input is not processed, and the
diagnostic naming the offending family is printed (main.c lines 243-250). -/
theorem unsupported_family_invalidates_store (reg : DistributionRegistry)
    (pre post : List (String × String)) (f : String)
    (hpre : goodDirectives reg pre false = true)
    (hent : 0 < countEntries pre)
    (hbad : (reg.kernelLoc f).1 = "" ∨ reg.initrdLoc f = "") :
    ∃ msgs, buildStore reg (pre ++ ("family", f) :: post) = BuildResult.done none msgs ∧
      ("Distribution family " ++ f ++ " is not supported.") ∈ msgs := by
  obtain ⟨acc2, c2, msgs2, heq⟩ := buildLoop_good_prefix reg pre [] none []
    (("family", f) :: post) (by simpa using hpre) (Or.inr hent)
  refine ⟨msgs2 ++ ["Distribution family " ++ f ++ " is not supported."], ?_, by simp⟩
  rw [buildStore, heq]
  simp [buildLoop, processDirective, hbad]

/-- Witness for `unsupported_family_invalidates_store`: one valid entry,
then a family absent from the registry. -/
theorem unsupported_family_invalidates_store_witness :
    goodDirectives regUbuntu [("entry", "A")] false = true ∧
      0 < countEntries [("entry", "A")] ∧
      ((regUbuntu.kernelLoc "mystery").1 = "" ∨ regUbuntu.initrdLoc "mystery" = "") ∧
      ∃ msgs, buildStore regUbuntu ([("entry", "A")] ++ ("family", "mystery") :: []) =
          BuildResult.done none msgs ∧
        ("Distribution family " ++ "mystery" ++ " is not supported.") ∈ msgs :=
  ⟨by decide, by decide, by decide,
    unsupported_family_invalidates_store regUbuntu [("entry", "A")] [] "mystery"
      (by decide) (by decide) (by decide)⟩

/-- Helper: if every `family`, `kernel`, `initrd` or `root` directive is
preceded by an `entry`, the configuration loop never reaches the
NULL-payload dereference. -/
theorem buildLoop_entryPrecedes_no_crash (reg : DistributionRegistry) :
    ∀ (ds : List (String × String)) (acc : List LinuxBootOption)
      (cur : Option LinuxBootOption) (msgs : List String),
      entryPrecedes ds cur.isSome = true →
      isCrashed (buildLoop reg ds acc cur msgs) = false := by
  intro ds
  induction ds with
  | nil => intro acc cur msgs _; rfl
  | cons kv ds ih =>
    obtain ⟨k, v⟩ := kv
    intro acc cur msgs hgood
    by_cases hk : k = "entry"
    · subst hk
      simp only [entryPrecedes, eq_self_iff_true, if_true] at hgood
      have hstep : buildLoop reg (("entry", v) :: ds) acc cur msgs =
          buildLoop reg ds (acc ++ cur.toList) (some ⟨some v, none, none, none, none⟩)
            msgs := by
        simp [buildLoop, processDirective]
      rw [hstep]
      exact ih (acc ++ cur.toList) (some ⟨some v, none, none, none, none⟩) msgs hgood
    · by_cases hf : k = "family"
      · subst hf
        simp only [entryPrecedes, hk, if_false, eq_self_iff_true, if_true,
          Bool.or_eq_true, Bool.and_eq_true] at hgood
        obtain ⟨hsome, hrest⟩ := hgood
        obtain ⟨c, rfl⟩ := Option.isSome_iff_exists.mp hsome
        by_cases hbad : (reg.kernelLoc v).1 = "" ∨ reg.initrdLoc v = ""
        · have hstep : buildLoop reg (("family", v) :: ds) acc (some c) msgs =
              BuildResult.done none
                (msgs ++ ["Distribution family " ++ v ++ " is not supported."]) := by
            simp [buildLoop, processDirective, hbad]
          rw [hstep]
          rfl
        · have hstep : buildLoop reg (("family", v) :: ds) acc (some c) msgs =
              buildLoop reg ds acc (some ⟨c.name, some v, some (reg.kernelLoc v).1,
                some (reg.initrdLoc v), some (reg.kernelLoc v).2⟩) msgs := by
            simp [buildLoop, processDirective, hbad]
          rw [hstep]
          exact ih acc _ msgs hrest
      · by_cases hke : k = "kernel"
        · subst hke
          simp only [entryPrecedes, hk, hf, if_false, eq_self_iff_true, if_true,
            Bool.or_eq_true, Bool.and_eq_true] at hgood
          obtain ⟨hsome, hrest⟩ := hgood
          obtain ⟨c, rfl⟩ := Option.isSome_iff_exists.mp hsome
          have hstep : buildLoop reg (("kernel", v) :: ds) acc (some c) msgs =
              buildLoop reg ds acc
                (some ⟨c.name, c.distro_family, some v, c.initrd_path, c.boot_folder⟩)
                msgs := by
            simp [buildLoop, processDirective]
          rw [hstep]
          exact ih acc _ msgs hrest
        · by_cases hi : k = "initrd"
          · subst hi
            simp only [entryPrecedes, hk, hf, hke, if_false, eq_self_iff_true, if_true,
              Bool.or_eq_true, Bool.and_eq_true] at hgood
            obtain ⟨hsome, hrest⟩ := hgood
            obtain ⟨c, rfl⟩ := Option.isSome_iff_exists.mp hsome
            have hstep : buildLoop reg (("initrd", v) :: ds) acc (some c) msgs =
                buildLoop reg ds acc
                  (some ⟨c.name, c.distro_family, c.kernel_path, some v, c.boot_folder⟩)
                  msgs := by
              simp [buildLoop, processDirective]
            rw [hstep]
            exact ih acc _ msgs hrest
          · by_cases hr : k = "root"
            · subst hr
              simp only [entryPrecedes, hk, hf, hke, hi, if_false, eq_self_iff_true,
                if_true, Bool.or_eq_true, Bool.and_eq_true] at hgood
              obtain ⟨hsome, hrest⟩ := hgood
              obtain ⟨c, rfl⟩ := Option.isSome_iff_exists.mp hsome
              have hstep : buildLoop reg (("root", v) :: ds) acc (some c) msgs =
                  buildLoop reg ds acc
                    (some ⟨c.name, c.distro_family, c.kernel_path, c.initrd_path, some v⟩)
                    msgs := by
                simp [buildLoop, processDirective]
              rw [hstep]
              exact ih acc _ msgs hrest
            · simp only [entryPrecedes, hk, hf, hke, hi, hr, if_false,
                Bool.or_eq_true] at hgood
              have hstep : buildLoop reg ((k, v) :: ds) acc cur msgs =
                  buildLoop reg ds acc cur
                    (msgs ++ ["Unrecognized configuration option: " ++ k ++ "."]) := by
                simp [buildLoop, processDirective, hk, hf, hke, hi, hr]
              rw [hstep]
              exact ih acc cur _ (by simpa using hgood)

/-- C9 (confirmed).  For every registry and every directive sequence in
which each `family`, `kernel`, `initrd` or `root` directive is preceded by
at least one `entry` directive, the store builder never dereferences the
NULL `bootOption` payload of the sentinel head node: the crash outcome -
the model of exactly that dereference (main.c lines 236, 253, 255, 257
reached with the conductor still on the node allocated at line 205) - is
unreachable. -/
theorem builder_never_derefs_sentinel_payload (reg : DistributionRegistry)
    (ds : List (String × String)) (h : entryPrecedes ds false = true) :
    isCrashed (buildStore reg ds) = false :=
  buildLoop_entryPrecedes_no_crash reg ds [] none [] (by simpa using h)

/-- Witness for `builder_never_derefs_sentinel_payload` on a configuration
whose overrides all follow an entry. -/
theorem builder_never_derefs_sentinel_payload_witness :
    entryPrecedes [("entry", "A"), ("family", "ubuntu"), ("kernel", "/z")] false = true ∧
      isCrashed (buildStore regUbuntu
        [("entry", "A"), ("family", "ubuntu"), ("kernel", "/z")]) = false :=
  ⟨by decide,
    builder_never_derefs_sentinel_payload regUbuntu
      [("entry", "A"), ("family", "ubuntu"), ("kernel", "/z")] (by decide)⟩

/-- C4 (confirmed).  The `kernel`, `initrd` and `root` directives overwrite
the corresponding field of the active node unconditionally (main.c
lines 252-257), whatever value it held; and on the spec scenario
`entry=X, family=ubuntu, kernel=/custom/vmlinuz` (for any registry that
supports `ubuntu`) the final stored kernel path is the explicit
`/custom/vmlinuz`, not the family-resolved default, while the
family-resolved initrd path and boot folder are retained: the last value
wins. -/
theorem override_last_wins (reg : DistributionRegistry) (acc : List LinuxBootOption)
    (c : LinuxBootOption) (msgs : List String) (v : String)
    (hk1 : (reg.kernelLoc "ubuntu").1 ≠ "") (hk2 : reg.initrdLoc "ubuntu" ≠ "") :
    processDirective reg acc (some c) msgs "kernel" v =
      StepOut.cont acc (some ⟨c.name, c.distro_family, some v, c.initrd_path,
        c.boot_folder⟩) msgs ∧
    processDirective reg acc (some c) msgs "initrd" v =
      StepOut.cont acc (some ⟨c.name, c.distro_family, c.kernel_path, some v,
        c.boot_folder⟩) msgs ∧
    processDirective reg acc (some c) msgs "root" v =
      StepOut.cont acc (some ⟨c.name, c.distro_family, c.kernel_path, c.initrd_path,
        some v⟩) msgs ∧
    buildStore reg [("entry", "X"), ("family", "ubuntu"), ("kernel", "/custom/vmlinuz")] =
      BuildResult.done (some [none, some ⟨some "X", some "ubuntu", some "/custom/vmlinuz",
        some (reg.initrdLoc "ubuntu"), some (reg.kernelLoc "ubuntu").2⟩]) [] := by
  refine ⟨?_, ?_, ?_, ?_⟩
  · simp [processDirective]
  · simp [processDirective]
  · simp [processDirective]
  · simp [buildStore, buildLoop, processDirective, hk1, hk2]

/-- Witness for `override_last_wins` with the concrete `ubuntu` registry. -/
theorem override_last_wins_witness :
    (regUbuntu.kernelLoc "ubuntu").1 ≠ "" ∧
      regUbuntu.initrdLoc "ubuntu" ≠ "" ∧
      (processDirective regUbuntu [] (some sampleBO) [] "kernel" "/v" =
        StepOut.cont [] (some ⟨sampleBO.name, sampleBO.distro_family, some "/v",
          sampleBO.initrd_path, sampleBO.boot_folder⟩) [] ∧
      processDirective regUbuntu [] (some sampleBO) [] "initrd" "/v" =
        StepOut.cont [] (some ⟨sampleBO.name, sampleBO.distro_family, sampleBO.kernel_path,
          some "/v", sampleBO.boot_folder⟩) [] ∧
      processDirective regUbuntu [] (some sampleBO) [] "root" "/v" =
        StepOut.cont [] (some ⟨sampleBO.name, sampleBO.distro_family, sampleBO.kernel_path,
          sampleBO.initrd_path, some "/v"⟩) [] ∧
      buildStore regUbuntu
          [("entry", "X"), ("family", "ubuntu"), ("kernel", "/custom/vmlinuz")] =
        BuildResult.done (some [none, some ⟨some "X", some "ubuntu", some "/custom/vmlinuz",
          some (regUbuntu.initrdLoc "ubuntu"),
          some (regUbuntu.kernelLoc "ubuntu").2⟩]) []) :=
  ⟨by decide, by decide,
    override_last_wins regUbuntu [] sampleBO [] "/v" (by decide) (by decide)⟩

/-- C6 (counterexample).  The claim says a configuration that parses to
zero entries leaves the program in the cannot-continue state and the menu
is never invoked.  On the code, a zero-entry parse leaves
`distributionListRoot` as the non-NULL sentinel allocated at main.c
line 205, so the `!distributionListRoot` check at line 90 does not fire:
with the other required files present, `efi_main` displays the menu.  The
unreadable-buffer condition is reported (lines 212-214) but the build
continues. -/
theorem zero_entries_menu_shown_cex :
    efi_main regNone true true true "" = MainOutcome.menuShown ∧
      ReadConfigurationFile regNone "" = BuildResult.done (some [none]) [readErrMsg] := by
  constructor
  · rfl
  · rfl

/-- C6 (amended).  For every configuration buffer that tokenizes to no
directives (in particular an empty or unreadable one), the zero-bytes
condition is reported when the buffer is empty, but the store stays the
non-NULL lone sentinel, the parsing-error branch of `efi_main` is not
taken, and - with the other required files present - the menu is invoked
rather than the program halting. -/
theorem zero_entries_store_is_sentinel (reg : DistributionRegistry) (contents : String)
    (h : tokenize contents = []) :
    ReadConfigurationFile reg contents =
      BuildResult.done (some [none])
        (if contents.length = 0 then [readErrMsg] else []) ∧
    efi_main reg true true true contents = MainOutcome.menuShown := by
  have h1 : ReadConfigurationFile reg contents =
      BuildResult.done (some [none])
        (if contents.length = 0 then [readErrMsg] else []) := by
    rw [ReadConfigurationFile, h]
    rfl
  exact ⟨h1, by simp [efi_main, h1]⟩

/-- Witness for `zero_entries_store_is_sentinel` on the empty buffer. -/
theorem zero_entries_store_is_sentinel_witness :
    tokenize "" = [] ∧
      (ReadConfigurationFile regUbuntu "" =
        BuildResult.done (some [none])
          (if ("" : String).length = 0 then [readErrMsg] else []) ∧
      efi_main regUbuntu true true true "" = MainOutcome.menuShown) :=
  ⟨by decide, zero_entries_store_is_sentinel regUbuntu "" (by decide)⟩

/-- Helper: erasing the heap addresses from an allocation-instrumented run
yields exactly the uninstrumented run; in particular the structure of the
result does not depend on the allocator cursor. -/
theorem eraseResult_buildLoopA (reg : DistributionRegistry) :
    ∀ (ds : List (String × String)) (alloc : Nat)
      (acc : List (Nat × LinuxBootOption)) (cur : Option (Nat × LinuxBootOption))
      (msgs : List String),
      eraseResult (buildLoopA reg ds alloc acc cur msgs) =
        buildLoop reg ds (acc.map Prod.snd) (Option.map Prod.snd cur) msgs := by
  intro ds
  induction ds with
  | nil =>
    intro alloc acc cur msgs
    cases cur <;>
      simp [buildLoopA, buildLoop, eraseResult, List.map_map, Function.comp]
  | cons kv ds ih =>
    obtain ⟨k, v⟩ := kv
    intro alloc acc cur msgs
    by_cases hk : k = "entry"
    · subst hk
      have hstepA : buildLoopA reg (("entry", v) :: ds) alloc acc cur msgs =
          buildLoopA reg ds (alloc + 2) (acc ++ cur.toList)
            (some (alloc, ⟨some v, none, none, none, none⟩)) msgs := by
        simp [buildLoopA, processDirectiveA]
      have hstep : buildLoop reg (("entry", v) :: ds) (acc.map Prod.snd)
            (Option.map Prod.snd cur) msgs =
          buildLoop reg ds (acc.map Prod.snd ++ (Option.map Prod.snd cur).toList)
            (some ⟨some v, none, none, none, none⟩) msgs := by
        simp [buildLoop, processDirective]
      rw [hstepA, hstep, ih]
      cases cur <;> simp
    · by_cases hf : k = "family"
      · subst hf
        cases cur with
        | none => simp [buildLoopA, buildLoop, processDirectiveA, processDirective,
            eraseResult]
        | some ac =>
          obtain ⟨a, c⟩ := ac
          by_cases hbad : (reg.kernelLoc v).1 = "" ∨ reg.initrdLoc v = ""
          · simp [buildLoopA, buildLoop, processDirectiveA, processDirective, hbad,
              eraseResult]
          · have hstepA : buildLoopA reg (("family", v) :: ds) alloc acc
                  (some (a, c)) msgs =
                buildLoopA reg ds alloc acc (some (a, ⟨c.name, some v,
                  some (reg.kernelLoc v).1, some (reg.initrdLoc v),
                  some (reg.kernelLoc v).2⟩)) msgs := by
              simp [buildLoopA, processDirectiveA, hbad]
            have hstep : buildLoop reg (("family", v) :: ds) (acc.map Prod.snd)
                  (some c) msgs =
                buildLoop reg ds (acc.map Prod.snd) (some ⟨c.name, some v,
                  some (reg.kernelLoc v).1, some (reg.initrdLoc v),
                  some (reg.kernelLoc v).2⟩) msgs := by
              simp [buildLoop, processDirective, hbad]
            rw [hstepA, ih]
            simp [hstep]
      · by_cases hke : k = "kernel"
        · subst hke
          cases cur with
          | none => simp [buildLoopA, buildLoop, processDirectiveA, processDirective,
              eraseResult]
          | some ac =>
            obtain ⟨a, c⟩ := ac
            have hstepA : buildLoopA reg (("kernel", v) :: ds) alloc acc
                  (some (a, c)) msgs =
                buildLoopA reg ds alloc acc (some (a, ⟨c.name, c.distro_family, some v,
                  c.initrd_path, c.boot_folder⟩)) msgs := by
              simp [buildLoopA, processDirectiveA]
            have hstep : buildLoop reg (("kernel", v) :: ds) (acc.map Prod.snd)
                  (some c) msgs =
                buildLoop reg ds (acc.map Prod.snd) (some ⟨c.name, c.distro_family,
                  some v, c.initrd_path, c.boot_folder⟩) msgs := by
              simp [buildLoop, processDirective]
            rw [hstepA, ih]
            simp [hstep]
        · by_cases hi : k = "initrd"
          · subst hi
            cases cur with
            | none => simp [buildLoopA, buildLoop, processDirectiveA, processDirective,
                eraseResult]
            | some ac =>
              obtain ⟨a, c⟩ := ac
              have hstepA : buildLoopA reg (("initrd", v) :: ds) alloc acc
                    (some (a, c)) msgs =
                  buildLoopA reg ds alloc acc (some (a, ⟨c.name, c.distro_family,
                    c.kernel_path, some v, c.boot_folder⟩)) msgs := by
                simp [buildLoopA, processDirectiveA]
              have hstep : buildLoop reg (("initrd", v) :: ds) (acc.map Prod.snd)
                    (some c) msgs =
                  buildLoop reg ds (acc.map Prod.snd) (some ⟨c.name, c.distro_family,
                    c.kernel_path, some v, c.boot_folder⟩) msgs := by
                simp [buildLoop, processDirective]
              rw [hstepA, ih]
              simp [hstep]
          · by_cases hr : k = "root"
            · subst hr
              cases cur with
              | none => simp [buildLoopA, buildLoop, processDirectiveA,
                  processDirective, eraseResult]
              | some ac =>
                obtain ⟨a, c⟩ := ac
                have hstepA : buildLoopA reg (("root", v) :: ds) alloc acc
                      (some (a, c)) msgs =
                    buildLoopA reg ds alloc acc (some (a, ⟨c.name, c.distro_family,
                      c.kernel_path, c.initrd_path, some v⟩)) msgs := by
                  simp [buildLoopA, processDirectiveA]
                have hstep : buildLoop reg (("root", v) :: ds) (acc.map Prod.snd)
                      (some c) msgs =
                    buildLoop reg ds (acc.map Prod.snd) (some ⟨c.name, c.distro_family,
                      c.kernel_path, c.initrd_path, some v⟩) msgs := by
                  simp [buildLoop, processDirective]
                rw [hstepA, ih]
                simp [hstep]
            · have hstepA : buildLoopA reg ((k, v) :: ds) alloc acc cur msgs =
                  buildLoopA reg ds alloc acc cur
                    (msgs ++ ["Unrecognized configuration option: " ++ k ++ "."]) := by
                simp [buildLoopA, processDirectiveA, hk, hf, hke, hi, hr]
              have hstep : buildLoop reg ((k, v) :: ds) (acc.map Prod.snd)
                    (Option.map Prod.snd cur) msgs =
                  buildLoop reg ds (acc.map Prod.snd) (Option.map Prod.snd cur)
                    (msgs ++ ["Unrecognized configuration option: " ++ k ++ "."]) := by
                simp [buildLoop, processDirective, hk, hf, hke, hi, hr]
              rw [hstepA, hstep, ih]

/-- C8 (confirmed).  Two independent runs of the configuration parser on
the same input buffer - modelled as runs starting from arbitrary, possibly
different allocator states - produce structurally identical stores: after
erasing the heap addresses, the same outcome, the same number of nodes,
the same names and resolved paths, in the same order, with the same
diagnostics. -/
theorem parse_deterministic_in_buffer (reg : DistributionRegistry) (buf : String)
    (a1 a2 : Nat) :
    eraseResult (ReadConfigurationFileA reg a1 buf) =
      eraseResult (ReadConfigurationFileA reg a2 buf) := by
  rw [ReadConfigurationFileA, ReadConfigurationFileA, eraseResult_buildLoopA,
    eraseResult_buildLoopA]

end Enterprise
